import Mathlib

/-!
Verification of the version-resolution engine of the `nuts` release server:
a shallow embedding of `lib/versions.js` (tag normalization, channel
extraction, version catalog: list / filter / resolve / channels) and of the
Squirrel.Mac update handler of `lib/nuts.js`, together with theorems checking
the natural-language specification against it.

Modelling conventions: JavaScript machine behaviour is embedded explicitly —
a thrown exception becomes an `Except.error`, in-place mutation of an options
object becomes explicit state passing, a compiled regular expression becomes
its match function, and a `Date` becomes its millisecond timestamp.  External
modules that are not part of the sources (`utils/platforms`, `utils/notes`,
the node `semver` library) are modelled from the specification, as marked in
their doc comments.
-/

set_option maxHeartbeats 1000000

/-- Decidable equality of `Except` values, used to evaluate the embedded
operations on concrete inputs. -/
instance {ε α : Type} [DecidableEq ε] [DecidableEq α] : DecidableEq (Except ε α) := fun a b =>
  match a, b with
  | .error e, .error f =>
    if h : e = f then isTrue (congrArg Except.error h)
    else isFalse (fun hh => h (Except.error.inj hh))
  | .error _, .ok _ => isFalse (fun hh => Except.noConfusion hh)
  | .ok _, .error _ => isFalse (fun hh => Except.noConfusion hh)
  | .ok x, .ok y =>
    if h : x = y then isTrue (congrArg Except.ok h)
    else isFalse (fun hh => h (Except.ok.inj hh))

namespace Nuts

/-- Prefix test on character lists, by structural recursion so that concrete
instances evaluate inside the kernel. -/
def charsStart : List Char → List Char → Bool
  | [], _ => true
  | _ :: _, [] => false
  | a :: as, b :: bs => if a = b then charsStart as bs else false

/-- Embedding of `String.prototype.startsWith`. -/
def jsStartsWith (s pre : String) : Bool := charsStart pre.data s.data

/-- Embedding of `String.prototype.endsWith`. -/
def jsEndsWith (s suf : String) : Bool := charsStart suf.data.reverse s.data.reverse

/-- Removal of the first `n` characters of a string. -/
def jsDrop (s : String) (n : Nat) : String := String.mk (s.data.drop n)

/-- Fuel-indexed worker of `jsSplit`: scans the character list left to right,
cutting at every non-overlapping occurrence of the nonempty separator.  The
fuel starts above the list length and never runs out. -/
def splitOnCharsFuel : Nat → List Char → List Char → List Char → List (List Char)
  | 0, _, acc, _ => [acc.reverse]
  | _ + 1, [], acc, _ => [acc.reverse]
  | fuel + 1, c :: rest, acc, sep =>
    if charsStart sep (c :: rest) then
      acc.reverse :: splitOnCharsFuel fuel ((c :: rest).drop sep.length) [] sep
    else splitOnCharsFuel fuel rest (c :: acc) sep

/-- Embedding of `String.prototype.split` with a nonempty separator (every
separator this program uses is nonempty): `jsSplit s sep` always returns a
nonempty list, and `jsSplit "" sep = [""]` as in JavaScript. -/
def jsSplit (s sep : String) : List String :=
  if sep.isEmpty then [s]
  else (splitOnCharsFuel (s.data.length + 1) s.data [] sep.data).map String.mk

/-- Joining of strings with a separator, by structural recursion. -/
def jsJoin (sep : String) : List String → String
  | [] => ""
  | [x] => x
  | x :: rest => x ++ sep ++ jsJoin sep rest

/-- Decimal value of a list of digit characters. -/
def charsToNat (l : List Char) : Nat :=
  l.foldl (fun n c => n * 10 + (c.toNat - 48)) 0

/-- Errors surfaced by the embedded JavaScript code: the `TypeError` thrown
when a property of `null` is accessed, the error thrown by the semver
comparator on an unparseable version, the `Version not found` error of
`resolve` (carrying the tag written into its message), and the
missing-parameter errors of the update handler. -/
inductive JsError where
  | typeError : JsError
  | invalidSemver : JsError
  | versionNotFound : String → JsError
  | missingParam : String → JsError
deriving DecidableEq

/-- Result of a successful JavaScript `String.prototype.match` call on a
non-global regex: `length` is the length of the returned match array (a
JavaScript array length is never negative), and `version` is the named capture
group `groups.version` — `none` when the `groups` object or the `version`
group is absent. -/
structure JsMatch where
  length : Nat
  version : Option String
deriving DecidableEq

/-- Shallow embedding of a compiled JavaScript regular expression, given by
its match behaviour: `r tag = none` models `tag.match(r) === null` (no match),
and `regex.test(tag)` is modelled as `(r tag).isSome`, which agrees with
JavaScript for non-global regexes. -/
def JsRegex : Type := String → Option JsMatch

/-- Truthiness of `matches.groups?.version`: `undefined` and the empty string
are falsy in JavaScript. -/
def jsFalsy (o : Option String) : Bool := (o.getD "").isEmpty

/-- Behaviour of `normalizeTag` after a successful match (`matches` non-null):
the guard `matches.length < 0 || !matches.groups?.version` returns the tag
unchanged (its first disjunct is always false, an array length being
nonnegative), otherwise the `version` group is returned. -/
def normalizeTagMatched (tag : String) (m : JsMatch) : String :=
  if (m.length : Int) < 0 || jsFalsy m.version then tag
  else m.version.getD ""

/-- Embedding of `normalizeTag(tag, tagNameFilter)`: with a filter,
`tag.match(regex)` is `null` on a non-matching tag and the subsequent
`matches.length` access throws a `TypeError`; on a match `normalizeTagMatched`
applies.  Without a filter a single leading `v` is stripped. -/
def normalizeTag (tag : String) (tagNameFilter : Option JsRegex) : Except JsError String :=
  match tagNameFilter with
  | some r =>
    match r tag with
    | none => .error .typeError
    | some m => .ok (normalizeTagMatched tag m)
  | none => .ok (if jsStartsWith tag "v" then jsDrop tag 1 else tag)

/-- Embedding of the inner `getSuffix` of `extractChannel`:
`str.split('-')[1]` (the segment between the first and second dash) is
`undefined` (no dash present) or the empty string, giving `"stable"`;
otherwise that segment truncated at its first `.`. -/
def getSuffix (str : String) : String :=
  match (jsSplit str "-").get? 1 with
  | none => "stable"
  | some seg => if seg.isEmpty then "stable" else (jsSplit seg ".").headD seg

/-- Behaviour of `extractChannel` after a successful match: the same dead
`matches.length < 0` guard as in `normalizeTagMatched`, yielding `"stable"`
when the `version` group is falsy, and `getSuffix` of the group otherwise. -/
def extractChannelMatched (m : JsMatch) : String :=
  if (m.length : Int) < 0 || jsFalsy m.version then "stable"
  else getSuffix (m.version.getD "")

/-- Embedding of `extractChannel(tag, tagNameFilter)`: without a filter,
`getSuffix` of the raw tag; with a filter, a non-matching tag makes the
`matches.length` access throw a `TypeError`, and a match goes through
`extractChannelMatched`. -/
def extractChannel (tag : String) (tagNameFilter : Option JsRegex) : Except JsError String :=
  match tagNameFilter with
  | none => .ok (getSuffix tag)
  | some r =>
    match r tag with
    | none => .error .typeError
    | some m => .ok (extractChannelMatched m)

/-- Modelled from the spec: the canonical platform identifiers produced by the
missing `utils/platforms` module (PlatformClassifier). -/
def platformIds : List String := ["osx_64", "windows_32", "windows_64", "linux_32", "linux_64"]

/-- Substring test used by the platform heuristics: `strContains s pat` holds
when the nonempty `pat` occurs inside `s`. -/
def strContains (s pat : String) : Bool := (jsSplit s pat).length ≥ 2

/-- Modelled from the spec: `platforms.detect(filename)` of the missing
`utils/platforms` module — maps a filename or free-form platform string to a
canonical platform identifier by extension/substring heuristics, `none` when
unrecognized.  A canonical identifier maps to itself. -/
def detectPlatform (t : String) : Option String :=
  if platformIds.contains t then some t
  else if strContains t "darwin" || strContains t "mac" || strContains t "osx" || jsEndsWith t ".dmg" then
    some "osx_64"
  else if strContains t "win64" || strContains t "x64" then some "windows_64"
  else if strContains t "win" || jsEndsWith t ".exe" || jsEndsWith t ".nupkg" then some "windows_32"
  else if strContains t "linux64" || strContains t "amd64" then some "linux_64"
  else if strContains t "linux" then some "linux_32"
  else none

/-- Modelled from the spec: the compatibility rule of `platforms.satisfies` —
an available platform satisfies the requested one when it is the requested one
or a more specific variant refining it (a generic `linux` request is satisfied
by a `linux_64` asset). -/
def platformCompat (requested available : String) : Bool :=
  available == requested || jsStartsWith available (requested ++ "_")

/-- Modelled from the spec: `platforms.satisfies(requested, available)` of the
missing `utils/platforms` module — some available platform satisfies the
requested one. -/
def platformSatisfies (requested : String) (available : List String) : Bool :=
  available.any (fun t => platformCompat requested t)

/-- Raw release asset as supplied by the backend. -/
structure RawAsset where
  id : Nat
  name : String
  size : Nat
  content_type : String
  download_count : Nat
deriving DecidableEq

/-- Raw release as supplied by the backend: `body` is the nullable notes
field, `published_at` the millisecond timestamp of the parsed `Date`. -/
structure Release where
  tag_name : String
  draft : Bool
  body : Option String
  published_at : Nat
  assets : List RawAsset
deriving DecidableEq

/-- Classified asset record of a normalized `Version`. -/
structure Asset where
  id : String
  type : String
  filename : String
  size : Nat
  content_type : String
deriving DecidableEq

/-- Normalized version record built by `normalizeVersion`. -/
structure Version where
  version : String
  tag : String
  channel : String
  notes : String
  published_at : Nat
  platforms : List Asset
deriving DecidableEq

/-- Embedding of the asset classification pipeline of `normalizeVersion`:
each asset is classified by `platforms.detect(asset.name)` and unclassifiable
assets are dropped (`compact`).  The summed download count is a dead local of
the source and is not modelled. -/
def normalizeAssets (assets : List RawAsset) : List Asset :=
  assets.filterMap (fun a =>
    (detectPlatform a.name).map (fun p =>
      { id := toString a.id, type := p, filename := a.name,
        size := a.size, content_type := a.content_type }))

/-- Embedding of `normalizeVersion(release, tagNameFilter)`: drafts are
dropped; with a filter, a release whose tag fails `regex.test` is dropped, and
otherwise the match is non-null so `normalizeTag` and `extractChannel` take
their matched branches and cannot throw.  The `tag` field is the normalized
version string truncated at its first `-`, and the channel is extracted from
the raw tag name. -/
def normalizeVersion (release : Release) (tagNameFilter : Option JsRegex) : Option Version :=
  if release.draft then none
  else
    match tagNameFilter with
    | some r =>
      match r release.tag_name with
      | none => none
      | some m =>
        let nt := normalizeTagMatched release.tag_name m
        some { version := nt, tag := (jsSplit nt "-").headD nt,
               channel := extractChannelMatched m,
               notes := release.body.getD "", published_at := release.published_at,
               platforms := normalizeAssets release.assets }
    | none =>
      let nt := if jsStartsWith release.tag_name "v" then jsDrop release.tag_name 1
                else release.tag_name
      some { version := nt, tag := (jsSplit nt "-").headD nt,
             channel := getSuffix release.tag_name,
             notes := release.body.getD "", published_at := release.published_at,
             platforms := normalizeAssets release.assets }

/-- Strict decimal numeral of a semantic-version component: nonempty, all
digits, no leading zero. -/
def parseNatStrict (s : String) : Option Nat :=
  if s.isEmpty then none
  else if !(s.data.all Char.isDigit) then none
  else if s.data.length > 1 && s.data.headD ' ' == '0' then none
  else some (charsToNat s.data)

/-- Modelled from the spec: the version parser of the external node `semver`
library, restricted to the version shapes this program produces — an optional
leading `v`, a `major.minor.patch` core of strict decimal numerals, optional
nonempty build metadata after `+` (ignored for precedence).  Pre-release
suffixes never reach the comparator here because the `tag` field is truncated
at the first `-`. -/
def parseSemver (s : String) : Option (Nat × Nat × Nat) :=
  let s1 := if jsStartsWith s "v" then jsDrop s 1 else s
  let core? : Option String :=
    match jsSplit s1 "+" with
    | [c] => some c
    | [c, b] => if b.isEmpty then none else some c
    | _ => none
  match core? with
  | none => none
  | some c =>
    match jsSplit c "." with
    | [a, b, p] =>
      match parseNatStrict a, parseNatStrict b, parseNatStrict p with
      | some x, some y, some z => some (x, y, z)
      | _, _, _ => none
    | _ => none

/-- Lexicographic strict order on parsed `major.minor.patch` triples: the
precedence order of semantic versions without pre-release identifiers. -/
def tripLt (a b : Nat × Nat × Nat) : Prop :=
  a.1 < b.1 ∨ (a.1 = b.1 ∧ (a.2.1 < b.2.1 ∨ (a.2.1 = b.2.1 ∧ a.2.2 < b.2.2)))

instance : DecidableRel tripLt := fun a b =>
  inferInstanceAs (Decidable (a.1 < b.1 ∨ (a.1 = b.1 ∧ (a.2.1 < b.2.1 ∨ (a.2.1 = b.2.1 ∧ a.2.2 < b.2.2)))))

/-- Embedding of `compareVersions(v1, v2)`: `-1` when `v1.tag` has the greater
semantic-version precedence, `1` when the smaller, `0` on equal precedence;
the underlying `semver.gt`/`semver.lt` throw on an unparseable tag. -/
def compareVersions (v1 v2 : Version) : Except JsError Int :=
  match parseSemver v1.tag, parseSemver v2.tag with
  | some a, some b =>
    .ok (if tripLt b a then (-1 : Int) else if tripLt a b then 1 else 0)
  | _, _ => .error .invalidSemver

/-- Comparison of a parsed version against the parsed bound of a comparator
range; an unparseable bound makes the range invalid, which never matches. -/
def rangeCmp (v : Nat × Nat × Nat) (bound : String)
    (ok : (Nat × Nat × Nat) → (Nat × Nat × Nat) → Bool) : Bool :=
  match parseSemver bound with
  | none => false
  | some r => ok v r

/-- Modelled from the spec: `semver.satisfies(version, range)` of the external
node `semver` library, restricted to the range forms this program constructs —
the wildcard `*`, the comparator ranges `>=x`, `<=x`, `>x`, `<x`, `=x`, and
exact versions.  An unparseable version or unrecognized range never matches
(node semver returns `false` from `satisfies` rather than throwing). -/
def semverSatisfies (ver range : String) : Bool :=
  match parseSemver ver with
  | none => false
  | some v =>
    if range == "*" then true
    else if jsStartsWith range ">=" then rangeCmp v (jsDrop range 2) (fun a b => !(decide (tripLt a b)))
    else if jsStartsWith range "<=" then rangeCmp v (jsDrop range 2) (fun a b => !(decide (tripLt b a)))
    else if jsStartsWith range ">" then rangeCmp v (jsDrop range 1) (fun a b => decide (tripLt b a))
    else if jsStartsWith range "<" then rangeCmp v (jsDrop range 1) (fun a b => decide (tripLt a b))
    else if jsStartsWith range "=" then rangeCmp v (jsDrop range 1) (fun a b => decide (a = b))
    else rangeCmp v range (fun a b => decide (a = b))

/-- Sort key of a version inside the comparator: its parsed tag.  The default
is never reached where the key is used, `Versions.list` having already checked
that every tag parses before sorting. -/
def verKey (v : Version) : Nat × Nat × Nat := (parseSemver v.tag).getD (0, 0, 0)

/-- Stable descending sort order on index-tagged versions: strictly
semver-greater tags come first, and equal-precedence tags are ordered by their
original position.  `Array.prototype.sort` with the comparator
`compareVersions` is (per ES2019) the stable descending sort, which is exactly
the sort by this total order on (key, original index) pairs. -/
def sortRel (p q : Nat × Version) : Prop :=
  tripLt (verKey q.2) (verKey p.2) ∨ (verKey p.2 = verKey q.2 ∧ p.1 ≤ q.1)

instance : DecidableRel sortRel := fun p q =>
  inferInstanceAs (Decidable (tripLt (verKey q.2) (verKey p.2) ∨ (verKey p.2 = verKey q.2 ∧ p.1 ≤ q.1)))

instance : IsTotal (Nat × Version) sortRel := by
  constructor
  intro p q
  unfold sortRel tripLt
  rcases verKey p.2 with ⟨a, b, c⟩
  rcases verKey q.2 with ⟨d, e, f⟩
  simp only [Prod.mk.injEq]
  omega

instance : IsTrans (Nat × Version) sortRel := by
  constructor
  intro p q s hpq hqs
  unfold sortRel tripLt at hpq hqs ⊢
  generalize verKey p.2 = kp at hpq ⊢
  generalize verKey q.2 = kq at hpq hqs
  generalize verKey s.2 = ks at hqs ⊢
  obtain ⟨a, b, c⟩ := kp
  obtain ⟨d, e, f⟩ := kq
  obtain ⟨g, h, i⟩ := ks
  simp only [Prod.mk.injEq] at hpq hqs ⊢
  omega

/-- Embedding of the map/compact pipeline of `Versions.list`: normalize each
raw release in backend order, dropping the excluded ones. -/
def normalizedList (releases : List Release) (tagNameFilter : Option JsRegex) : List Version :=
  (releases.map (fun r => normalizeVersion r tagNameFilter)).reduceOption

/-- Stable descending sort of the normalized versions, realized as the
insertion sort by `sortRel` on the index-tagged list. -/
def stableSortVersions (vs : List Version) : List Version :=
  (vs.enum.insertionSort sortRel).map Prod.snd

/-- Embedding of `Versions.list()`.  `Array.prototype.sort` invokes the
comparator on no pair at all for fewer than two elements (so an unparseable
tag in a singleton catalog throws nothing), and for two or more elements its
run detection compares every element at least once, so any unparseable tag
makes `compareVersions` throw; when every tag parses, the ES2019-stable sort
yields the unique (key, index)-lexicographic ordering of
`stableSortVersions`. -/
def Versions.list (releases : List Release) (tagNameFilter : Option JsRegex) :
    Except JsError (List Version) :=
  let vs := normalizedList releases tagNameFilter
  if vs.length ≤ 1 then .ok vs
  else if vs.all (fun v => (parseSemver v.tag).isSome) then .ok (stableSortVersions vs)
  else .error .invalidSemver

/-- Caller-supplied options object of `filter`/`resolve`: `none` models an
absent field. -/
structure FilterOpts where
  tag : Option String
  platform : Option String
  channel : Option String
deriving DecidableEq

/-- The options object as it stands after `filter`'s preprocessing. -/
structure MergedOpts where
  tag : String
  platform : Option String
  channel : String
deriving DecidableEq

/-- Embedding of the in-place option preprocessing of `filter`:
`_.defaults(opts || {}, ...)` fills only the missing fields with the defaults
`tag: 'latest'`, `platform: null`, `channel: 'stable'`, and a truthy platform
string is then replaced by `platforms.detect` of it (possibly `null`).  In
JavaScript this mutates the caller's options object; the embedding passes the
updated state explicitly. -/
def processOpts (o : FilterOpts) : MergedOpts :=
  { tag := o.tag.getD "latest",
    channel := o.channel.getD "stable",
    platform :=
      match o.platform with
      | none => none
      | some p => if p.isEmpty then some p else detectPlatform p }

/-- Truthiness of a nullable string field. -/
def optTruthy (o : Option String) : Bool :=
  match o with
  | none => false
  | some s => !s.isEmpty

/-- Embedding of the filtering predicate of `Versions.filter`: reject on a
channel mismatch unless the wildcard is requested, reject when a truthy
platform is satisfied by none of the version's asset platforms, and finally
require the requested tag to be `latest` or a range satisfied by the
version's tag. -/
def filterKeep (m : MergedOpts) (v : Version) : Bool :=
  if m.channel != "*" && v.channel != m.channel then false
  else if optTruthy m.platform
      && !(platformSatisfies (m.platform.getD "") (v.platforms.map (fun a => a.type))) then false
  else m.tag == "latest" || semverSatisfies v.tag m.tag

/-- Embedding of `Versions.filter(opts)` together with the mutated options
object it leaves behind in the caller (`_.defaults` and the platform rewrite
operate in place on `opts`). -/
def Versions.filterWithOpts (releases : List Release) (tagNameFilter : Option JsRegex)
    (opts : FilterOpts) : MergedOpts × Except JsError (List Version) :=
  let m := processOpts opts
  (m, (Versions.list releases tagNameFilter).map (fun vs => vs.filter (filterKeep m)))

/-- Embedding of the return value of `Versions.filter(opts)`. -/
def Versions.filter (releases : List Release) (tagNameFilter : Option JsRegex)
    (opts : FilterOpts) : Except JsError (List Version) :=
  (Versions.filterWithOpts releases tagNameFilter opts).2

/-- Embedding of `Versions.resolve(opts)`: the first element of the filtered
list, or the `Version not found` error whose message is built from `opts.tag`
— read after `filter` has mutated `opts`, hence from the merged options. -/
def Versions.resolve (releases : List Release) (tagNameFilter : Option JsRegex)
    (opts : FilterOpts) : Except JsError Version :=
  match Versions.filterWithOpts releases tagNameFilter opts with
  | (_, .error e) => .error e
  | (m, .ok []) => .error (.versionNotFound m.tag)
  | (_, .ok (v :: _)) => .ok v

/-- Per-channel summary record of `Versions.channels`. -/
structure ChannelInfo where
  latest : Option String
  versions_count : Nat
  published_at : Nat
deriving DecidableEq

/-- Embedding of the per-version update of a channel summary inside the
`channels` fold: the count is incremented, and `latest`/`published_at` are
replaced when the version's timestamp strictly exceeds the recorded one. -/
def bumpChannel (v : Version) (c : ChannelInfo) : ChannelInfo :=
  let c1 : ChannelInfo := { c with versions_count := c.versions_count + 1 }
  if c1.published_at < v.published_at then
    { c1 with latest := some v.tag, published_at := v.published_at }
  else c1

/-- Embedding of one iteration of the `channels` fold over the JavaScript
object map: the entry for the version's channel is created on first use
(appended, matching the insertion order of JavaScript string keys) and then
updated in place. -/
def insertOrUpdate (acc : List (String × ChannelInfo)) (v : Version) :
    List (String × ChannelInfo) :=
  match acc with
  | [] => [(v.channel, bumpChannel v ⟨none, 0, 0⟩)]
  | (k, c) :: rest =>
    if k = v.channel then (k, bumpChannel v c) :: rest
    else (k, c) :: insertOrUpdate rest v

/-- Embedding of `Versions.channels()`: fold the sorted catalog into the
per-channel summary map. -/
def Versions.channels (releases : List Release) (tagNameFilter : Option JsRegex) :
    Except JsError (List (String × ChannelInfo)) :=
  (Versions.list releases tagNameFilter).map (fun vs => vs.foldl insertOrUpdate [])

/-- Modelled from the spec: `notes.merge(versions, ...)` of the missing
`utils/notes` module — concatenates the release notes of the given versions in
the given (newest-first) order. -/
def notesMerge (vs : List Version) : String :=
  jsJoin "\n" (vs.map (fun v => v.notes))

/-- Outcome of the Squirrel.Mac-style update handler `onUpdate`: an error, the
204 `No updates` response, or the JSON update response given as name, notes,
publication timestamp and channel (the proxy `url` field, a pure request-path
computation, is not modelled). -/
inductive UpdateResult where
  | err : JsError → UpdateResult
  | noUpdate : UpdateResult
  | update : String → String → Nat → String → UpdateResult
deriving DecidableEq

/-- Channel of `onUpdate`: the route parameter, a falsy value defaulting to
the wildcard (`req.params.channel || '*'`). -/
def updChannel (channelParam : Option String) : String :=
  match channelParam with
  | none => "*"
  | some c => if c.isEmpty then "*" else c

/-- Current tag of `onUpdate`: the version route parameter truncated at its
first `-` (`req.params.version.split('-')[0]`). -/
def updTag (versionParam : String) : String :=
  (jsSplit versionParam "-").headD versionParam

/-- Options object that `onUpdate` passes to `versions.filter`: the range
`>=` the current tag, the detected platform (possibly `null`), and the
channel parameter defaulted to the wildcard. -/
def updateFilterOpts (platformParam versionParam : String) (channelParam : Option String) :
    FilterOpts :=
  { tag := some (">=" ++ updTag versionParam),
    platform := detectPlatform platformParam,
    channel := some (updChannel channelParam) }

/-- Embedding of `Nuts.prototype.onUpdate`: requires the version and platform
parameters; filters the catalog for versions `>=` the current tag on the
detected platform and channel; responds 204 when nothing qualifies or the
newest qualifying tag equals the current one; otherwise the response notes are
the merge of `versions.slice(0, -1)` — every qualifying version except the
last — or of the single qualifying version when there is exactly one. -/
def onUpdate (releases : List Release) (tagNameFilter : Option JsRegex)
    (platformParam versionParam : String) (channelParam : Option String) : UpdateResult :=
  if (updTag versionParam).isEmpty then .err (.missingParam "version")
  else if platformParam.isEmpty then .err (.missingParam "platform")
  else
    match Versions.filter releases tagNameFilter
        (updateFilterOpts platformParam versionParam channelParam) with
    | .error e => .err e
    | .ok [] => .noUpdate
    | .ok (latest :: rest) =>
      if latest.tag == updTag versionParam then .noUpdate
      else
        .update latest.tag
          (notesMerge (if (latest :: rest).length == 1 then latest :: rest
                       else (latest :: rest).dropLast))
          latest.published_at (updChannel channelParam)

/-- Statement of the claim's filtering predicate, written from the
specification: the requested channel is the wildcard or equals the version's
channel; the platform is unset or some asset's platform satisfies it; the tag
is `latest` or a range the version's tag satisfies. -/
def filterKeepSpec (m : MergedOpts) (v : Version) : Bool :=
  (m.channel == "*" || v.channel == m.channel)
    && (!(optTruthy m.platform)
        || v.platforms.any (fun a => platformCompat (m.platform.getD "") a.type))
    && (m.tag == "latest" || semverSatisfies v.tag m.tag)

/-- Statement of the amended channel extraction, written from the amended
wording: the channel of a version string is `"stable"` when there is nothing
between the first and second dash, and otherwise that segment truncated at its
first dot — possibly the empty string. -/
def channelSpecAmended (s : String) : String :=
  match (jsSplit s "-").get? 1 with
  | none => "stable"
  | some seg => if seg.isEmpty then "stable" else (jsSplit seg ".").headD seg

/-- Running maximum of `published_at` over a list of versions, seeded at `m`. -/
def maxPubFrom (m : Nat) (g : List Version) : Nat :=
  g.foldl (fun m v => max m v.published_at) m

/-- Maximum `published_at` of a list of versions, zero when empty — the
initial per-channel value of the `channels` fold. -/
def maxPub (g : List Version) : Nat := maxPubFrom 0 g

/-- Lookup of a channel summary in the embedded JavaScript object map. -/
def findCh : List (String × ChannelInfo) → String → Option ChannelInfo
  | [], _ => none
  | (k, c) :: rest, ch => if k = ch then some c else findCh rest ch

/-- A regular expression that matches nothing: the embedding of any filter
pattern applied to a tag it does not match, e.g. the pattern
`release-v(?<version>.+)` applied to the tag `1.2.3`. -/
def noMatchRegex : JsRegex := fun _ => none

/-- A regular expression embedding the pattern `x-v(?<version>.*)` as it
behaves on the single tag `x-v1.0.0-beta.1`: a match array of length 1 whose
`version` group holds `1.0.0-beta.1`. -/
def exRegex : JsRegex := fun t =>
  if t = "x-v1.0.0-beta.1" then some ⟨1, some "1.0.0-beta.1"⟩ else none

/-- Backend release of tag `v2.0.0-beta.1` with one macOS asset. -/
def relBeta : Release :=
  { tag_name := "v2.0.0-beta.1", draft := false, body := some "B2", published_at := 2,
    assets := [⟨1, "app-darwin.dmg", 100, "application/octet-stream", 5⟩] }

/-- Backend release of tag `v1.0.0` with one macOS asset. -/
def relStable : Release :=
  { tag_name := "v1.0.0", draft := false, body := some "B1", published_at := 1,
    assets := [⟨2, "app-darwin.dmg", 100, "application/octet-stream", 7⟩] }

/-- The normalized version of `relBeta`. -/
def vBeta : Version :=
  { version := "2.0.0-beta.1", tag := "2.0.0", channel := "beta", notes := "B2",
    published_at := 2, platforms := [⟨"1", "osx_64", "app-darwin.dmg", 100, "application/octet-stream"⟩] }

/-- The normalized version of `relStable`. -/
def vStable : Version :=
  { version := "1.0.0", tag := "1.0.0", channel := "stable", notes := "B1",
    published_at := 1, platforms := [⟨"2", "osx_64", "app-darwin.dmg", 100, "application/octet-stream"⟩] }

/-- Two-release backend: a beta ahead of a stable release. -/
def exReleases : List Release := [relBeta, relStable]

/-- Backend release whose tag `vbroken` fails semantic-version parsing. -/
def relMalformed : Release :=
  { tag_name := "vbroken", draft := false, body := some "M", published_at := 9,
    assets := [] }

/-- The normalized version of `relMalformed`: its `tag` is `broken`. -/
def vMalformed : Version :=
  { version := "broken", tag := "broken", channel := "stable", notes := "M",
    published_at := 9, platforms := [] }

/-- Backend release published exactly at the epoch (`published_at` 0). -/
def relEpoch : Release :=
  { tag_name := "v1.0.0", draft := false, body := some "E", published_at := 0,
    assets := [] }

/-- The normalized version of `relEpoch`. -/
def vEpoch : Version :=
  { version := "1.0.0", tag := "1.0.0", channel := "stable", notes := "E",
    published_at := 0, platforms := [] }

/-- Backend release of tag `v2.0.0` with notes `B`. -/
def relTwo : Release :=
  { tag_name := "v2.0.0", draft := false, body := some "B", published_at := 2,
    assets := [⟨3, "app-darwin.dmg", 100, "application/octet-stream", 0⟩] }

/-- Backend release of tag `v3.0.0` with notes `C`. -/
def relThree : Release :=
  { tag_name := "v3.0.0", draft := false, body := some "C", published_at := 3,
    assets := [⟨4, "app-darwin.dmg", 100, "application/octet-stream", 0⟩] }

/-- The normalized version of `relTwo`. -/
def vTwo : Version :=
  { version := "2.0.0", tag := "2.0.0", channel := "stable", notes := "B",
    published_at := 2, platforms := [⟨"3", "osx_64", "app-darwin.dmg", 100, "application/octet-stream"⟩] }

/-- The normalized version of `relThree`. -/
def vThree : Version :=
  { version := "3.0.0", tag := "3.0.0", channel := "stable", notes := "C",
    published_at := 3, platforms := [⟨"4", "osx_64", "app-darwin.dmg", 100, "application/octet-stream"⟩] }

/-- Backend in which the client's current release `1.0.0` is absent: only
`2.0.0` and `3.0.0` exist. -/
def exGapReleases : List Release := [relTwo, relThree]

/-- The lexicographic order on version triples is irreflexive. -/
theorem tripLt_irrefl (a : Nat × Nat × Nat) : ¬ tripLt a a := by
  obtain ⟨x, y, z⟩ := a
  unfold tripLt
  omega

/-- A list with at most one element is vacuously pairwise related. -/
theorem pairwise_of_length_le_one {α : Type} {R : α → α → Prop} {l : List α}
    (h : l.length ≤ 1) : l.Pairwise R := by
  rcases l with _ | ⟨a, _ | ⟨b, t⟩⟩
  · exact List.Pairwise.nil
  · simp
  · simp at h

/-- The mutated options pair returned by `filterWithOpts` is the processed
options together with the filtered result. -/
theorem filterWithOpts_eq (releases : List Release) (tagNameFilter : Option JsRegex)
    (opts : FilterOpts) :
    Versions.filterWithOpts releases tagNameFilter opts =
      (processOpts opts, Versions.filter releases tagNameFilter opts) := rfl

/-- A caller-supplied tag survives the defaults merge unchanged. -/
theorem processOpts_tag_some (opts : FilterOpts) (t : String) (h : opts.tag = some t) :
    (processOpts opts).tag = t := by
  simp [processOpts, h]

/-- An absent tag is defaulted to `latest` by the merge. -/
theorem processOpts_tag_none (opts : FilterOpts) (h : opts.tag = none) :
    (processOpts opts).tag = "latest" := by
  simp [processOpts, h]

/-- A nonempty filter result makes `resolve` return its first element. -/
theorem resolve_of_cons (releases : List Release) (tagNameFilter : Option JsRegex)
    (opts : FilterOpts) (v : Version) (rest : List Version)
    (h : Versions.filter releases tagNameFilter opts = .ok (v :: rest)) :
    Versions.resolve releases tagNameFilter opts = .ok v := by
  unfold Versions.resolve
  rw [filterWithOpts_eq, h]

/-- An empty filter result makes `resolve` fail with the merged tag in the
error. -/
theorem resolve_of_nil (releases : List Release) (tagNameFilter : Option JsRegex)
    (opts : FilterOpts) (h : Versions.filter releases tagNameFilter opts = .ok []) :
    Versions.resolve releases tagNameFilter opts =
      .error (.versionNotFound (processOpts opts).tag) := by
  unfold Versions.resolve
  rw [filterWithOpts_eq, h]

/-- C1: the specification claims that `normalizeTag` returns the tag
unchanged whenever the supplied filter pattern does not match; in the code the
guard `matches.length < 0` can never fire, so the `matches.length` access on
the `null` match result throws a `TypeError` instead — here evaluated at the
tag `1.2.3` against a filter it does not match. -/
theorem c1_normalizeTag_nonmatching_filter_throws :
    normalizeTag "1.2.3" (some noMatchRegex) = .error .typeError := rfl

/-- C6 as stated is false: `filter({tag: 'latest'})` defaults the channel to
`stable`, so a beta release ahead of a stable one is dropped from the middle
of the catalog and the filtered result is not a prefix of `list()`. -/
theorem c6_counterexample :
    Versions.list exReleases none = .ok [vBeta, vStable] ∧
    Versions.filter exReleases none ⟨some "latest", none, none⟩ = .ok [vStable] ∧
    ¬ [vStable] <+: [vBeta, vStable] := by
  refine ⟨by decide, by decide, by decide⟩

/-- C6 amended: `filter({tag: 'latest'})` returns a subsequence of `list()`'s
output — the surviving versions keep their relative order, but versions may be
dropped anywhere, not only at the tail. -/
theorem c6_filter_latest_sublist (releases : List Release) (tagNameFilter : Option JsRegex)
    (vs : List Version) (h : Versions.list releases tagNameFilter = .ok vs) :
    ∃ ws, Versions.filter releases tagNameFilter ⟨some "latest", none, none⟩ = .ok ws ∧
      List.Sublist ws vs := by
  refine ⟨vs.filter (filterKeep (processOpts ⟨some "latest", none, none⟩)), ?_,
    List.filter_sublist vs⟩
  unfold Versions.filter Versions.filterWithOpts
  rw [h]
  rfl

/-- Closed instance of the amended C6 at the two-release backend. -/
theorem c6_witness :
    ∃ ws, Versions.filter exReleases none ⟨some "latest", none, none⟩ = .ok ws ∧
      List.Sublist ws [vBeta, vStable] :=
  c6_filter_latest_sublist exReleases none [vBeta, vStable] (by decide)

/-- C7 as stated is false: the channel computed for the tag `1.0.0-.1` with no
filter is the empty string, not a non-empty token; and for `1.0.0-beta-2.1`
the code yields `beta`, not the dash-to-dot token `beta-2` the claim
describes. -/
theorem c7_counterexample :
    extractChannel "1.0.0-.1" none = .ok "" ∧
    extractChannel "1.0.0-beta-2.1" none = .ok "beta" ∧
    ("beta" : String) ≠ "beta-2" := by
  refine ⟨by decide, by decide, by decide⟩

/-- C7 amended: with no filter the channel is `stable` when nothing stands
between the first and second dash, and otherwise that segment truncated at
its first dot — which may be empty; with a filter whose match carries a truthy
`version` group the same computation applies to the group (a non-matching
filter throws instead of yielding `stable`). -/
theorem c7_channel_amended (tag : String) :
    extractChannel tag none = .ok (channelSpecAmended tag) ∧
    (∀ (r : JsRegex) (m : JsMatch) (gv : String),
      r tag = some m → m.version = some gv → jsFalsy m.version = false →
      extractChannel tag (some r) = .ok (channelSpecAmended gv)) := by
  constructor
  · rfl
  · intro r m gv hr hv hfalsy
    unfold extractChannel
    dsimp only
    rw [hr]
    dsimp only
    unfold extractChannelMatched
    have h0 : (decide ((m.length : Int) < 0)) = false := by
      simp
    rw [h0, hfalsy]
    simp only [Bool.or_false]
    rw [if_neg (by simp), hv]
    rfl

/-- Closed instance of the amended C7 at a matching filter. -/
theorem c7_witness :
    extractChannel "x-v1.0.0-beta.1" (some exRegex) = .ok "beta" := by
  have h := (c7_channel_amended "x-v1.0.0-beta.1").2 exRegex ⟨1, some "1.0.0-beta.1"⟩
    "1.0.0-beta.1" rfl rfl (by decide)
  have h2 : channelSpecAmended "1.0.0-beta.1" = "beta" := by decide
  rw [h2] at h
  exact h

/-- C9 as stated is false: a backend with a single non-excluded release whose
normalized tag `broken` is not a semantic version makes `list()` return that
version without any error — `Array.prototype.sort` never invokes the
comparator on a singleton, so nothing throws and nothing is dropped. -/
theorem c9_counterexample :
    Versions.list [relMalformed] none = .ok [vMalformed] ∧
    parseSemver vMalformed.tag = none := by
  refine ⟨by decide, by decide⟩

/-- C9 amended: when the catalog holds at least two non-excluded versions, an
unparseable normalized tag reaches the comparator and makes the `list()` call
fail with the comparator's error. -/
theorem c9_malformed_tag_fails (releases : List Release) (tagNameFilter : Option JsRegex)
    (h2 : 2 ≤ (normalizedList releases tagNameFilter).length)
    (hbad : ∃ v ∈ normalizedList releases tagNameFilter, parseSemver v.tag = none) :
    Versions.list releases tagNameFilter = .error .invalidSemver := by
  have hall : (normalizedList releases tagNameFilter).all
      (fun v => (parseSemver v.tag).isSome) = false := by
    apply List.all_eq_false.mpr
    obtain ⟨v, hv, hp⟩ := hbad
    exact ⟨v, hv, by rw [hp]; simp⟩
  unfold Versions.list
  rw [if_neg (by omega), if_neg (by rw [hall]; simp)]

/-- Closed instance of the amended C9 at a two-release backend with one
malformed tag. -/
theorem c9_witness :
    Versions.list [relMalformed, relStable] none = .error .invalidSemver :=
  c9_malformed_tag_fails [relMalformed, relStable] none (by decide)
    ⟨vMalformed, by decide, by decide⟩

/-- C2: whenever `list()` returns a catalog, some index-tagging of it is a
permutation of the enumerated normalized release sequence that is pairwise
descending under `compareVersions`, with equal-precedence tags ordered by
their original (backend-sequence) position — descending semantic-version
order with stable ties. -/
theorem c2_list_sorted_stable (releases : List Release) (tagNameFilter : Option JsRegex)
    (vs : List Version) (h : Versions.list releases tagNameFilter = .ok vs) :
    ∃ ps : List (Nat × Version),
      ps.map Prod.snd = vs ∧
      ps.Perm (normalizedList releases tagNameFilter).enum ∧
      ps.Pairwise (fun p q =>
        compareVersions p.2 q.2 = .ok (-1) ∨
        (compareVersions p.2 q.2 = .ok 0 ∧ p.1 ≤ q.1)) := by
  unfold Versions.list at h
  by_cases hlen : (normalizedList releases tagNameFilter).length ≤ 1
  · rw [if_pos hlen] at h
    obtain rfl : normalizedList releases tagNameFilter = vs := by
      injection h
    refine ⟨(normalizedList releases tagNameFilter).enum, List.enum_map_snd _,
      List.Perm.refl _, ?_⟩
    exact pairwise_of_length_le_one (by rw [List.enum_length]; exact hlen)
  · rw [if_neg hlen] at h
    by_cases hall : (normalizedList releases tagNameFilter).all
        (fun v => (parseSemver v.tag).isSome)
    · rw [if_pos hall] at h
      obtain rfl : stableSortVersions (normalizedList releases tagNameFilter) = vs := by
        injection h
      refine ⟨(normalizedList releases tagNameFilter).enum.insertionSort sortRel, rfl,
        List.perm_insertionSort _ _, ?_⟩
      have hsorted := List.sorted_insertionSort sortRel
        ((normalizedList releases tagNameFilter).enum)
      refine List.Pairwise.imp_of_mem ?_ hsorted
      intro p q hp hq hr
      have hp2 : p.2 ∈ normalizedList releases tagNameFilter := by
        have hp' : p ∈ (normalizedList releases tagNameFilter).enum :=
          (List.mem_insertionSort sortRel).mp hp
        obtain ⟨hi, he⟩ := List.getElem?_eq_some.mp (List.mem_enum_iff_getElem?.mp hp')
        rw [← he]
        exact List.getElem_mem hi
      have hq2 : q.2 ∈ normalizedList releases tagNameFilter := by
        have hq' : q ∈ (normalizedList releases tagNameFilter).enum :=
          (List.mem_insertionSort sortRel).mp hq
        obtain ⟨hi, he⟩ := List.getElem?_eq_some.mp (List.mem_enum_iff_getElem?.mp hq')
        rw [← he]
        exact List.getElem_mem hi
      obtain ⟨kp, hkp⟩ := Option.isSome_iff_exists.mp (List.all_eq_true.mp hall _ hp2)
      obtain ⟨kq, hkq⟩ := Option.isSome_iff_exists.mp (List.all_eq_true.mp hall _ hq2)
      have hvkp : verKey p.2 = kp := by unfold verKey; rw [hkp]; rfl
      have hvkq : verKey q.2 = kq := by unfold verKey; rw [hkq]; rfl
      unfold sortRel at hr
      rw [hvkp, hvkq] at hr
      unfold compareVersions
      rw [hkp, hkq]
      dsimp only
      rcases hr with hlt | ⟨heq, hle⟩
      · left
        rw [if_pos hlt]
      · right
        subst heq
        rw [if_neg (tripLt_irrefl kp), if_neg (tripLt_irrefl kp)]
        exact ⟨rfl, hle⟩
    · rw [if_neg hall] at h
      exact Except.noConfusion h

/-- Closed instance of C2 at the two-release backend. -/
theorem c2_witness :
    ∃ ps : List (Nat × Version),
      ps.map Prod.snd = [vBeta, vStable] ∧
      ps.Perm (normalizedList exReleases none).enum ∧
      ps.Pairwise (fun p q =>
        compareVersions p.2 q.2 = .ok (-1) ∨
        (compareVersions p.2 q.2 = .ok 0 ∧ p.1 ≤ q.1)) :=
  c2_list_sorted_stable exReleases none [vBeta, vStable] (by decide)

/-- The source predicate of `filter` agrees pointwise with the predicate
described by the specification. -/
theorem filterKeep_eq_spec (m : MergedOpts) (v : Version) :
    filterKeep m v = filterKeepSpec m v := by
  unfold filterKeep filterKeepSpec platformSatisfies
  have hmap : (v.platforms.map (fun a => a.type)).any
        (fun t => platformCompat (m.platform.getD "") t)
      = v.platforms.any (fun a => platformCompat (m.platform.getD "") a.type) := by
    induction v.platforms with
    | nil => rfl
    | cons a as ih => simp only [List.map_cons, List.any_cons, ih]
  rw [hmap]
  cases h1 : (m.channel == "*") <;>
    cases h2 : (v.channel == m.channel) <;>
      cases h3 : optTruthy m.platform <;>
        cases h4 : v.platforms.any (fun a => platformCompat (m.platform.getD "") a.type) <;>
          simp [bne, h1, h2, h3, h4]

/-- C3: `filter(options)` merges the defaults `tag: latest`, `platform: null`,
`channel: stable` over missing fields and returns exactly the versions of
`list()`, in order, for which the channel is the wildcard or matches, the
(detected) platform is unset or satisfied by some asset, and the tag is
`latest` or a satisfied range. -/
theorem c3_filter_spec (releases : List Release) (tagNameFilter : Option JsRegex)
    (opts : FilterOpts) (vs : List Version)
    (h : Versions.list releases tagNameFilter = .ok vs) :
    Versions.filter releases tagNameFilter opts =
      .ok (vs.filter (filterKeepSpec (processOpts opts))) := by
  unfold Versions.filter Versions.filterWithOpts
  rw [h]
  simp only [Except.map]
  rw [List.filter_congr (fun x _ => filterKeep_eq_spec (processOpts opts) x)]

/-- Closed instance of C3 at the two-release backend. -/
theorem c3_witness :
    Versions.filter exReleases none ⟨some "latest", none, none⟩ =
      .ok ([vBeta, vStable].filter (filterKeepSpec (processOpts ⟨some "latest", none, none⟩))) :=
  c3_filter_spec exReleases none ⟨some "latest", none, none⟩ [vBeta, vStable] (by decide)

/-- C4: `resolve(options)` returns the first element of `filter(options)`;
on an empty filtered result it fails with the version-not-found error carrying
the requested tag (any caller-supplied tag survives the defaults merge that
the error message reads). -/
theorem c4_resolve_first_or_notfound (releases : List Release)
    (tagNameFilter : Option JsRegex) (opts : FilterOpts) :
    (∀ v rest, Versions.filter releases tagNameFilter opts = .ok (v :: rest) →
      Versions.resolve releases tagNameFilter opts = .ok v) ∧
    (Versions.filter releases tagNameFilter opts = .ok [] →
      Versions.resolve releases tagNameFilter opts =
        .error (.versionNotFound (processOpts opts).tag)) ∧
    (∀ t, opts.tag = some t → (processOpts opts).tag = t) := by
  refine ⟨?_, ?_, ?_⟩
  · intro v rest h
    exact resolve_of_cons releases tagNameFilter opts v rest h
  · intro h
    exact resolve_of_nil releases tagNameFilter opts h
  · intro t ht
    exact processOpts_tag_some opts t ht

/-- Closed instance of C4: resolving the unavailable tag `9.9.9` fails with
that tag in the error. -/
theorem c4_witness :
    Versions.resolve exReleases none ⟨some "9.9.9", none, none⟩ =
      .error (.versionNotFound "9.9.9") := by
  have h := (c4_resolve_first_or_notfound exReleases none ⟨some "9.9.9", none, none⟩).2.1
    (by decide)
  have ht : (processOpts ⟨some "9.9.9", none, none⟩).tag = "9.9.9" := by decide
  rw [ht] at h
  exact h

/-- C10: `filter` writes the merged defaults into the caller's options object
(modelled by the first component of `filterWithOpts`), so `resolve` over an
options object supplied without a tag reports the defaulted tag `latest` in
its not-found error. -/
theorem c10_filter_mutates_opts (releases : List Release) (tagNameFilter : Option JsRegex)
    (opts : FilterOpts) (h : opts.tag = none) :
    (Versions.filterWithOpts releases tagNameFilter opts).1.tag = "latest" ∧
    (Versions.filter releases tagNameFilter opts = .ok [] →
      Versions.resolve releases tagNameFilter opts =
        .error (.versionNotFound "latest")) := by
  constructor
  · rw [filterWithOpts_eq]
    exact processOpts_tag_none opts h
  · intro hf
    have hr := resolve_of_nil releases tagNameFilter opts hf
    rw [processOpts_tag_none opts h] at hr
    exact hr

/-- Closed instance of C10 at an options object with no tag field. -/
theorem c10_witness :
    (Versions.filterWithOpts exReleases none ⟨none, none, some "nope"⟩).1.tag = "latest" ∧
    Versions.resolve exReleases none ⟨none, none, some "nope"⟩ =
      .error (.versionNotFound "latest") := by
  have h := c10_filter_mutates_opts exReleases none ⟨none, none, some "nope"⟩ rfl
  exact ⟨h.1, h.2 (by decide)⟩

/-- C5 as stated is false: with current version `1.0.0` and a backend holding
`2.0.0` (notes `B`) and `3.0.0` (notes `C`), both qualifying versions are
strictly newer than the client's version, yet the response notes are only `C`
— `versions.slice(0, -1)` dropped the oldest qualifying version `2.0.0`
although it is strictly newer than `1.0.0`. -/
theorem c5_counterexample :
    onUpdate exGapReleases none "darwin" "1.0.0" none = .update "3.0.0" "C" 3 "*" ∧
    Versions.filter exGapReleases none (updateFilterOpts "darwin" "1.0.0" none) =
      .ok [vThree, vTwo] ∧
    tripLt (1, 0, 0) (verKey vThree) ∧ tripLt (1, 0, 0) (verKey vTwo) ∧
    notesMerge [vThree, vTwo] = "C\nB" ∧ ("C" : String) ≠ "C\nB" := by
  refine ⟨by decide, by decide, by decide, by decide, by decide, by decide⟩

/-- C5 amended: whenever `onUpdate` responds with an update, its notes are the
merge, newest first, of all qualifying versions except the last (oldest) one —
or of the single qualifying version when exactly one exists.  This equals the
set of versions strictly newer than the client's only when the oldest
qualifying version is the client's own. -/
theorem c5_update_notes_drop_last (releases : List Release) (tagNameFilter : Option JsRegex)
    (platformParam versionParam : String) (channelParam : Option String)
    (nm nt : String) (pub : Nat) (ch : String)
    (h : onUpdate releases tagNameFilter platformParam versionParam channelParam
      = .update nm nt pub ch) :
    ∃ vs : List Version,
      Versions.filter releases tagNameFilter
        (updateFilterOpts platformParam versionParam channelParam) = .ok vs ∧
      vs ≠ [] ∧
      nt = notesMerge (if vs.length == 1 then vs else vs.dropLast) := by
  unfold onUpdate at h
  by_cases h1 : (updTag versionParam).isEmpty
  · rw [if_pos h1] at h
    exact absurd h (by simp)
  rw [if_neg h1] at h
  by_cases h2 : platformParam.isEmpty
  · rw [if_pos h2] at h
    exact absurd h (by simp)
  rw [if_neg h2] at h
  cases hf : Versions.filter releases tagNameFilter
      (updateFilterOpts platformParam versionParam channelParam) with
  | error e =>
    rw [hf] at h
    exact absurd h (by simp)
  | ok versions =>
    rw [hf] at h
    cases versions with
    | nil => exact absurd h (by simp)
    | cons latest rest =>
      dsimp only at h
      cases h3 : (latest.tag == updTag versionParam) with
      | true =>
        rw [h3] at h
        exact absurd h (by simp)
      | false =>
        rw [h3] at h
        simp only [if_false, Bool.false_eq_true] at h
        refine ⟨latest :: rest, rfl, by simp, ?_⟩
        have := (UpdateResult.update.injEq _ _ _ _ _ _ _ _).mp h
        exact this.2.1.symm

/-- Closed instance of the amended C5 at the gap backend. -/
theorem c5_witness :
    ∃ vs : List Version,
      Versions.filter exGapReleases none (updateFilterOpts "darwin" "1.0.0" none) = .ok vs ∧
      vs ≠ [] ∧
      "C" = notesMerge (if vs.length == 1 then vs else vs.dropLast) :=
  c5_update_notes_drop_last exGapReleases none "darwin" "1.0.0" none "3.0.0" "C" 3 "*"
    (by decide)

/-- One `channels`-fold step, seen through the lookup: the looked-up channel is
bumped exactly when it is the version's channel, seeded from the default entry
when absent. -/
theorem findCh_insertOrUpdate (acc : List (String × ChannelInfo)) (v : Version) (ch : String) :
    findCh (insertOrUpdate acc v) ch =
      if v.channel = ch then some (bumpChannel v ((findCh acc ch).getD ⟨none, 0, 0⟩))
      else findCh acc ch := by
  induction acc with
  | nil =>
    by_cases hv : v.channel = ch
    · simp [insertOrUpdate, findCh, hv]
    · simp [insertOrUpdate, findCh, hv]
  | cons e rest ih =>
    obtain ⟨k, c⟩ := e
    by_cases hk : k = v.channel
    · by_cases hv : v.channel = ch
      · simp [insertOrUpdate, findCh, hk, hv]
      · simp [insertOrUpdate, findCh, hk, hv]
    · by_cases hkc : k = ch
      · have hv : ¬ v.channel = ch := fun hh => hk (by rw [hkc, hh])
        have hcv : ¬ ch = v.channel := fun hh => hv hh.symm
        simp [insertOrUpdate, findCh, hk, hkc, hv, hcv]
      · simp [insertOrUpdate, findCh, hk, hkc, ih]

/-- The whole `channels` fold, seen through the lookup: the entry of a channel
is the bump-fold of the versions carrying that channel, present exactly when
the channel occurs (or was already present in the accumulator). -/
theorem findCh_foldl_insertOrUpdate (vs : List Version) (acc : List (String × ChannelInfo))
    (ch : String) :
    findCh (vs.foldl insertOrUpdate acc) ch =
      match findCh acc ch with
      | some c => some ((vs.filter (fun v => v.channel == ch)).foldl
          (fun c v => bumpChannel v c) c)
      | none =>
        if (vs.filter (fun v => v.channel == ch)).isEmpty then none
        else some ((vs.filter (fun v => v.channel == ch)).foldl
          (fun c v => bumpChannel v c) ⟨none, 0, 0⟩) := by
  induction vs generalizing acc with
  | nil =>
    simp only [List.foldl_nil, List.filter_nil]
    cases findCh acc ch <;> simp
  | cons v rest ih =>
    rw [List.foldl_cons, ih (insertOrUpdate acc v), findCh_insertOrUpdate]
    by_cases hv : v.channel = ch
    · rw [if_pos hv]
      have hfil : (v :: rest).filter (fun u => u.channel == ch)
          = v :: rest.filter (fun u => u.channel == ch) := by
        simp [List.filter_cons, hv]
      rw [hfil]
      cases hc : findCh acc ch with
      | none => simp [List.foldl_cons]
      | some c => simp [List.foldl_cons]
    · rw [if_neg hv]
      have hfil : (v :: rest).filter (fun u => u.channel == ch)
          = rest.filter (fun u => u.channel == ch) := by
        simp [List.filter_cons, hv]
      rw [hfil]

/-- The seed never exceeds the running maximum. -/
theorem le_maxPubFrom (g : List Version) : ∀ m : Nat, m ≤ maxPubFrom m g := by
  induction g with
  | nil => intro m; simp [maxPubFrom]
  | cons v rest ih =>
    intro m
    unfold maxPubFrom
    rw [List.foldl_cons]
    exact le_trans (le_max_left m v.published_at) (ih (max m v.published_at))

/-- The per-version bump, in closed form. -/
theorem bumpChannel_eq (v : Version) (c : ChannelInfo) :
    bumpChannel v c =
      { latest := if c.published_at < v.published_at then some v.tag else c.latest,
        versions_count := c.versions_count + 1,
        published_at := max c.published_at v.published_at } := by
  unfold bumpChannel
  by_cases h : c.published_at < v.published_at
  · simp [h, Nat.max_eq_right h.le]
  · simp [h, Nat.max_eq_left (Nat.not_lt.mp h)]

/-- The bump-fold of a channel group in closed form: the count grows by the
group size, the timestamp becomes the running maximum, and `latest` becomes
the tag of the first version attaining that maximum — provided the maximum
strictly exceeds the seed's timestamp, else `latest` is untouched. -/
theorem foldl_bump_char (g : List Version) :
    ∀ c₀ : ChannelInfo,
    g.foldl (fun c v => bumpChannel v c) c₀ =
      { latest :=
          if c₀.published_at < maxPubFrom c₀.published_at g then
            (g.find? (fun v => v.published_at == maxPubFrom c₀.published_at g)).map
              (fun v => v.tag)
          else c₀.latest,
        versions_count := c₀.versions_count + g.length,
        published_at := maxPubFrom c₀.published_at g } := by
  induction g with
  | nil =>
    intro c₀
    obtain ⟨l, n, p⟩ := c₀
    simp [maxPubFrom]
  | cons v rest ih =>
    intro c₀
    rw [List.foldl_cons, bumpChannel_eq, ih]
    dsimp only
    have hMcons : maxPubFrom c₀.published_at (v :: rest)
        = maxPubFrom (max c₀.published_at v.published_at) rest := rfl
    rw [hMcons]
    have hM : max c₀.published_at v.published_at
        ≤ maxPubFrom (max c₀.published_at v.published_at) rest := le_maxPubFrom rest _
    simp only [ChannelInfo.mk.injEq, List.length_cons]
    refine ⟨?_, by omega, trivial⟩
    by_cases hcase : max c₀.published_at v.published_at
        < maxPubFrom (max c₀.published_at v.published_at) rest
    · rw [if_pos hcase, if_pos (lt_of_le_of_lt (le_max_left _ _) hcase)]
      have hvne : (v.published_at == maxPubFrom (max c₀.published_at v.published_at) rest)
          = false := by
        have hne : v.published_at ≠ maxPubFrom (max c₀.published_at v.published_at) rest := by
          have := le_max_right c₀.published_at v.published_at
          omega
        simp [hne]
      rw [List.find?_cons, hvne]
    · rw [if_neg hcase]
      have hMeq : maxPubFrom (max c₀.published_at v.published_at) rest
          = max c₀.published_at v.published_at := by omega
      by_cases hPV : c₀.published_at < v.published_at
      · have hMV : maxPubFrom (max c₀.published_at v.published_at) rest
            = v.published_at := by omega
        have hvhit : (v.published_at == maxPubFrom (max c₀.published_at v.published_at) rest)
            = true := by simp [hMV]
        rw [if_pos hPV, List.find?_cons, hvhit,
          if_pos (show c₀.published_at
            < maxPubFrom (max c₀.published_at v.published_at) rest by omega)]
        rfl
      · rw [if_neg hPV,
          if_neg (show ¬ c₀.published_at
            < maxPubFrom (max c₀.published_at v.published_at) rest by omega)]

/-- C8 as stated is false: for a backend whose only release is published
exactly at the epoch, the strict comparison against the initial zero never
fires, so the channel summary's `latest` stays `null` although the channel's
maximum-`published_at` version has tag `1.0.0`. -/
theorem c8_counterexample :
    Versions.list [relEpoch] none = .ok [vEpoch] ∧
    Versions.channels [relEpoch] none = .ok [("stable", ⟨none, 1, 0⟩)] ∧
    (none : Option String) ≠ some vEpoch.tag := by
  refine ⟨by decide, by decide, by decide⟩

/-- C8 amended: `channels()` has an entry exactly for each channel occurring
in `list()`; its `versions_count` is the number of versions in that channel,
its `published_at` the channel's maximum timestamp, and its `latest` the tag
of the first version (in `list()` order) attaining that maximum — except that
`latest` stays `null` when the maximum is `0` (all versions published at the
epoch). -/
theorem c8_channels_spec (releases : List Release) (tagNameFilter : Option JsRegex)
    (cs : List (String × ChannelInfo)) (vs : List Version)
    (hc : Versions.channels releases tagNameFilter = .ok cs)
    (hl : Versions.list releases tagNameFilter = .ok vs) (ch : String) :
    findCh cs ch =
      if (vs.filter (fun v => v.channel == ch)).isEmpty then none
      else some
        { latest :=
            if 0 < maxPub (vs.filter (fun v => v.channel == ch)) then
              ((vs.filter (fun v => v.channel == ch)).find?
                (fun v => v.published_at == maxPub (vs.filter (fun v => v.channel == ch)))).map
                (fun v => v.tag)
            else none,
          versions_count := (vs.filter (fun v => v.channel == ch)).length,
          published_at := maxPub (vs.filter (fun v => v.channel == ch)) } := by
  unfold Versions.channels at hc
  rw [hl] at hc
  simp only [Except.map] at hc
  obtain rfl : vs.foldl insertOrUpdate [] = cs := by injection hc
  rw [findCh_foldl_insertOrUpdate vs [] ch]
  dsimp only [findCh]
  by_cases hg : (vs.filter (fun v => v.channel == ch)).isEmpty
  · rw [if_pos hg, if_pos hg]
  · rw [if_neg hg, if_neg hg, foldl_bump_char]
    simp [maxPub]

/-- Closed instance of the amended C8 at the two-release backend, looked up at
the `beta` channel. -/
theorem c8_witness :
    findCh [("beta", ⟨some "2.0.0", 1, 2⟩), ("stable", ⟨some "1.0.0", 1, 1⟩)] "beta" =
      if ([vBeta, vStable].filter (fun v => v.channel == "beta")).isEmpty then none
      else some
        { latest :=
            if 0 < maxPub ([vBeta, vStable].filter (fun v => v.channel == "beta")) then
              (([vBeta, vStable].filter (fun v => v.channel == "beta")).find?
                (fun v => v.published_at ==
                  maxPub ([vBeta, vStable].filter (fun v => v.channel == "beta")))).map
                (fun v => v.tag)
            else none,
          versions_count := ([vBeta, vStable].filter (fun v => v.channel == "beta")).length,
          published_at := maxPub ([vBeta, vStable].filter (fun v => v.channel == "beta")) } :=
  c8_channels_spec exReleases none
    [("beta", ⟨some "2.0.0", 1, 2⟩), ("stable", ⟨some "1.0.0", 1, 1⟩)]
    [vBeta, vStable] (by decide) (by decide) "beta"

end Nuts
